import Mathlib

/-!
Shallow embedding of the row-indexing subsystem of the simple-smartsheet
client library (models/sheet.py, models/row.py, models/cell.py).

Python dictionaries are modelled as insertion-ordered association lists
with unique keys (`dget` models `d[k]` / `d.get(k)`, returning `none`
where Python would raise `KeyError` or return `None`; `dset` models
`d[k] = v`, which keeps the position of an existing key and appends a
fresh key at the end).  Code that can raise a Python exception is
modelled in the `Except PyErr` monad.
-/

namespace SimpleSmartsheet

/-- Python exceptions that the modelled code can raise.  `nonRowEntry`
marks the two spots where the source performs an unchecked `cast` of an
index entry whose dynamic type does not match the index's uniqueness
flag; such states are never produced by `build_index` itself. -/
inductive PyErr where
  | keyError
  | valueError
  | typeError
  | attrError
  | indexNotFound
  | indexNotUnique
  | nonRowEntry
deriving DecidableEq, Repr

/-- Cell values (the `Union[float, str, datetime, None]` slot plus the
date / datetime objects produced by deserialization).  Numbers are
modelled as integers; the claims under verification only compare
values for equality. -/
inductive Value where
  | vNone
  | vBool (b : Bool)
  | vInt (n : Int)
  | vStr (s : String)
  | vDate (y m d : Nat)
  | vDatetime (y mo d h mi sec micro : Nat) (tzOffsetMinutes : Option Int)
deriving DecidableEq, Repr

/-- Python truthiness of a cell value (`if not value: ...`). -/
def Value.isFalsy : Value → Bool
  | .vNone => true
  | .vBool b => !b
  | .vInt n => n == 0
  | .vStr s => s.isEmpty
  | .vDate _ _ _ => false
  | .vDatetime _ _ _ _ _ _ _ _ => false

/-- Result type of `Cell.get_value`, which can return either a scalar
cell value or the list held by an object value. -/
inductive GotValue where
  | ofValue (v : Value)
  | ofList (vs : List Value)
deriving DecidableEq, Repr

/-- `models/cell.py` `ObjectValue`: a structured cell payload.  A
`values` attribute of Python `None` is modelled as the empty list
(both are falsy and neither is returned by `get_value`). -/
structure ObjectValue where
  objectType : String
  values : List Value
deriving DecidableEq, Repr

/-- `models/cell.py` `Cell` (the fields the verified operations read). -/
structure Cell where
  columnId : Option Nat
  displayValue : Option String
  objectValue : Option ObjectValue
  value : Value
deriving DecidableEq, Repr

/-- `models/column.py` `Column` (the fields the verified operations read). -/
structure Column where
  id : Option Nat
  title : Option String
deriving DecidableEq, Repr

/-- `models/row.py` `_RowBase`: cells plus the two derived cell lookups. -/
structure Row where
  id : Option Nat
  num : Option Nat
  cells : List Cell
  columnTitleToCell : List (String × Cell)
  columnIdToCell : List (Nat × Cell)
deriving DecidableEq, Repr

/-- An entry of an index mapping: a single `Row` (unique index) or a
list of rows (non-unique index).  The Python dict holds either object
uninspected; the sum type makes the dynamic distinction explicit. -/
inductive IndexEntry where
  | one (r : Row)
  | many (rs : List Row)
deriving DecidableEq, Repr

/-- One value of `Sheet.indexes`: the dict
`{"index": {...}, "unique": bool}` built by `build_index`. -/
structure IndexDict where
  unique : Bool
  index : List (List Value × IndexEntry)
deriving DecidableEq, Repr

/-- One element of the list passed to `build_index`
(`IndexKeysDict = {"columns": Tuple[str, ...], "unique": bool}`). -/
structure IndexSpec where
  columns : List String
  unique : Bool
deriving DecidableEq, Repr

/-- `models/sheet.py` `_SheetBase`: columns, rows, the four derived
lookups and the registered indexes. -/
structure Sheet where
  name : String
  columns : List Column
  rows : List Row
  rowNumToRow : List (Nat × Row)
  rowIdToRow : List (Nat × Row)
  columnTitleToColumn : List (String × Column)
  columnIdToColumn : List (Nat × Column)
  indexes : List (List String × IndexDict)
deriving DecidableEq, Repr

/-- `d.get(k)` / `d[k]` on an insertion-ordered dict. -/
def dget {K V : Type} [DecidableEq K] : List (K × V) → K → Option V
  | [], _ => none
  | (k, v) :: m, k2 => if k2 = k then some v else dget m k2

/-- `d[k] = v`: replace in place if the key exists, else append. -/
def dset {K V : Type} [DecidableEq K] : List (K × V) → K → V → List (K × V)
  | [], k, v => [(k, v)]
  | (k0, v0) :: m, k, v => if k0 = k then (k, v) :: m else (k0, v0) :: dset m k v

/-- Code-point comparison of strings, as Python compares `str` keys. -/
def charListLe : List Char → List Char → Bool
  | [], _ => true
  | _ :: _, [] => false
  | a :: as, b :: bs =>
    if a.toNat < b.toNat then true
    else if b.toNat < a.toNat then false
    else charListLe as bs

def strLe (a b : String) : Bool := charListLe a.data b.data

/-- Insert one filter item into a list sorted by column title. -/
def sortedInsert (p : String × Value) : List (String × Value) → List (String × Value)
  | [] => [p]
  | q :: l => if strLe p.1 q.1 then p :: q :: l else q :: sortedInsert p l

/-- `sorted(filter.items())`: the filter's items sorted by column title
(dict keys are distinct, so the values never take part in the
comparison). -/
def sortedItems (f : List (String × Value)) : List (String × Value) :=
  f.foldr sortedInsert []

/-- Python truthiness of an optional integer attribute
(`if row.num:` is false for both `None` and `0`). -/
def truthyNat : Option Nat → Bool
  | none => false
  | some n => n != 0

/-! ### Row and Sheet operations (models/row.py, models/sheet.py) -/

/-- Body of the loop of `_RowBase._update_cell_lookup` for one cell:
a cell whose `column_id` is `None` is skipped; otherwise
`sheet.get_column(column_id=...)` is a plain dict subscript that
raises `KeyError` for an unknown column id; a resolved column updates
the id lookup and, when it has a title, the title lookup. -/
def cellLookupFold (colIdToCol : List (Nat × Column))
    (acc : List (String × Cell) × List (Nat × Cell)) (cell : Cell) :
    Except PyErr (List (String × Cell) × List (Nat × Cell)) :=
  match cell.columnId with
  | none => .ok acc
  | some cid =>
    match dget colIdToCol cid with
    | none => .error .keyError
    | some col =>
      let acc2 := (acc.1, dset acc.2 cid cell)
      match col.title with
      | none => .ok acc2
      | some t => .ok (dset acc2.1 t cell, acc2.2)

/-- `_RowBase._update_cell_lookup`: clear both lookups, then fold over
the row's cells. Returns the rebuilt (title-to-cell, id-to-cell) pair. -/
def cellLookups (colIdToCol : List (Nat × Column)) (cells : List Cell) :
    Except PyErr (List (String × Cell) × List (Nat × Cell)) :=
  cells.foldlM (cellLookupFold colIdToCol) ([], [])

/-- `_RowBase._update_cell_lookup`, returning the updated row. -/
def updateCellLookup (colIdToCol : List (Nat × Column)) (r : Row) :
    Except PyErr Row := do
  let lk ← cellLookups colIdToCol r.cells
  pure ⟨r.id, r.num, r.cells, lk.1, lk.2⟩

/-- `_SheetBase._update_column_lookup`: clear both column lookups and
refill them from `self.columns` (columns without an id are skipped;
a column with an id but no title enters only the id lookup; duplicate
titles are overwritten, last write wins). -/
def updateColumnLookup (s : Sheet) : Sheet :=
  let maps := s.columns.foldl
    (fun (acc : List (Nat × Column) × List (String × Column)) column =>
      match column.id with
      | none => acc
      | some cid =>
        let acc2 := (dset acc.1 cid column, acc.2)
        match column.title with
        | none => acc2
        | some t => (acc2.1, dset acc2.2 t column))
    ([], [])
  ⟨s.name, s.columns, s.rows, s.rowNumToRow, s.rowIdToRow, maps.2, maps.1, s.indexes⟩

/-- `_SheetBase._update_row_cell_lookup`: clear the row-number and
row-id lookups, then for every row register it under its truthy
number and id and rebuild its cell lookup.  (In the source the row
object is inserted into the lookups and then mutated in place; the
functional model rebuilds the row first and inserts the updated row,
which yields the same final state.) -/
def updateRowCellLookup (s : Sheet) : Except PyErr Sheet := do
  let res ← s.rows.foldlM
    (fun (acc : List Row × List (Nat × Row) × List (Nat × Row)) r => do
      let r2 ← updateCellLookup s.columnIdToColumn r
      let numMap := match r2.num with
        | some n => if n = 0 then acc.2.1 else dset acc.2.1 n r2
        | none => acc.2.1
      let idMap := match r2.id with
        | some i => if i = 0 then acc.2.2 else dset acc.2.2 i r2
        | none => acc.2.2
      pure (acc.1 ++ [r2], numMap, idMap))
    ([], [], [])
  pure ⟨s.name, s.columns, res.1, res.2.1, res.2.2,
        s.columnTitleToColumn, s.columnIdToColumn, s.indexes⟩

/-- `_SheetBase.__attrs_post_init__`: construct a sheet from columns
and rows, building the column lookup and then the row/cell lookups. -/
def mkSheet (name : String) (columns : List Column) (rows : List Row) :
    Except PyErr Sheet :=
  updateRowCellLookup (updateColumnLookup ⟨name, columns, rows, [], [], [], [], []⟩)

/-- The value tuple of a row for an index key: in `_RowBase._update_index`,
`tuple(self.get_cell(column_title).value for column_title in index_key)`;
`get_cell` by title is a dict subscript raising `KeyError` when the row
has no cell for that column title. -/
def rowKey (r : Row) (K : List String) : Except PyErr (List Value) :=
  K.mapM (fun t =>
    match dget r.columnTitleToCell t with
    | none => .error .keyError
    | some c => .ok c.value)

/-- Whether a row's value tuple on the key columns `K` equals `vt`. -/
def rowMatches (K : List String) (vt : List Value) (r : Row) : Bool :=
  match rowKey r K with
  | .ok k => decide (k = vt)
  | .error _ => false

/-- The rows of a list whose value tuple on `K` is `vt`, in order. -/
def matchingRows (rows : List Row) (K : List String) (vt : List Value) : List Row :=
  rows.filter (rowMatches K vt)

/-- Body of `_RowBase._update_index` for one registered index: compute
the row's value tuple, then either overwrite (`index[key] = self`,
unique) or append to the list at the key (`index.setdefault(key, [])`
followed by `.append`, non-unique).  The `.one` entry in the
non-unique branch models `.append` on a `Row` object (an
`AttributeError` in Python); `build_index` never produces that state.
(The `isinstance(index_key, str)` branch of the source is not
modelled: keys registered by `build_index` are always title tuples.) -/
def stepEntry (r : Row) (K : List String) (d : IndexDict) :
    Except PyErr IndexDict := do
  let key ← rowKey r K
  if d.unique then
    pure ⟨d.unique, dset d.index key (.one r)⟩
  else
    match dget d.index key with
    | none => pure ⟨d.unique, dset d.index key (.many [r])⟩
    | some (.many rs) => pure ⟨d.unique, dset d.index key (.many (rs ++ [r]))⟩
    | some (.one _) => .error .attrError

/-- `_RowBase._update_index`: update every registered index with this
row, in index registration order. -/
def updateIndexRow (r : Row) (ixs : List (List String × IndexDict)) :
    Except PyErr (List (List String × IndexDict)) :=
  ixs.mapM (fun e => do
    let d2 ← stepEntry r e.1 e.2
    pure (e.1, d2))

/-- First loop of `_SheetBase.build_index`: register every spec with a
fresh empty mapping (`self.indexes[columns] = ...`), replacing any
previous definition for the same column tuple. -/
def registerSpecs (ixs : List (List String × IndexDict))
    (specs : List IndexSpec) : List (List String × IndexDict) :=
  specs.foldl (fun a sp => dset a sp.columns ⟨sp.unique, []⟩) ixs

/-- `_SheetBase.build_index`: register the specs, then re-scan all rows
updating every registered index (also the ones kept from earlier
calls). -/
def build_index (s : Sheet) (specs : List IndexSpec) : Except PyErr Sheet := do
  let ixs ← s.rows.foldlM (fun a r => updateIndexRow r a) (registerSpecs s.indexes specs)
  pure ⟨s.name, s.columns, s.rows, s.rowNumToRow, s.rowIdToRow,
        s.columnTitleToColumn, s.columnIdToColumn, ixs⟩

/-- `_SheetBase.get_row`: lookup by row number, row id or index filter,
in that priority order.  The filter branch sorts the filter items
(`zip` unpacking of an empty filter raises `ValueError`), resolves the
index (`SmartsheetIndexNotFound` when absent, `SmartsheetIndexNotUnique`
when non-unique) and finally performs `index[query]`, a dict subscript
that raises `KeyError` when the value tuple is absent. -/
def get_row (s : Sheet) (rowNum rowId : Option Nat)
    (filter : Option (List (String × Value))) : Except PyErr (Option Row) :=
  match rowNum with
  | some n => .ok (dget s.rowNumToRow n)
  | none =>
    match rowId with
    | some i => .ok (dget s.rowIdToRow i)
    | none =>
      match filter with
      | some f =>
        match sortedItems f with
        | [] => .error .valueError
        | p :: l =>
          let columns := (p :: l).map Prod.fst
          let query := (p :: l).map Prod.snd
          match dget s.indexes columns with
          | none => .error .indexNotFound
          | some d =>
            if d.unique then
              match dget d.index query with
              | some (.one r) => .ok (some r)
              | some (.many _) => .error .nonRowEntry
              | none => .error .keyError
            else .error .indexNotUnique
      | none => .error .valueError

/-- `_SheetBase.get_rows`: resolve the filter's index the same way and
return the stored entry: for a unique index, `[row]` when the value
tuple is present and `[]` otherwise; for a non-unique index, the
stored list with default `[]`. -/
def get_rows (s : Sheet) (f : List (String × Value)) : Except PyErr (List Row) :=
  match sortedItems f with
  | [] => .error .valueError
  | p :: l =>
    let columns := (p :: l).map Prod.fst
    let query := (p :: l).map Prod.snd
    match dget s.indexes columns with
    | none => .error .indexNotFound
    | some d =>
      if d.unique then
        match dget d.index query with
        | some (.one r) => .ok [r]
        | some (.many _) => .error .nonRowEntry
        | none => .ok []
      else
        match dget d.index query with
        | some (.many rs) => .ok rs
        | some (.one _) => .error .nonRowEntry
        | none => .ok []

/-- `_RowBase.get_cell`: lookup a cell by column title or id; both
lookups are dict subscripts raising `KeyError` when the key is absent;
supplying neither argument raises `ValueError`. -/
def get_cell (r : Row) (columnTitle : Option String) (columnId : Option Nat) :
    Except PyErr Cell :=
  match columnTitle with
  | some t =>
    match dget r.columnTitleToCell t with
    | some c => .ok c
    | none => .error .keyError
  | none =>
    match columnId with
    | some i =>
      match dget r.columnIdToCell i with
      | some c => .ok c
      | none => .error .keyError
    | none => .error .valueError

/-- `_SheetBase.get_column`: lookup a column by title or id (dict
subscripts, `KeyError` on a missing key, `ValueError` when neither
argument is supplied). -/
def get_column (s : Sheet) (columnTitle : Option String) (columnId : Option Nat) :
    Except PyErr Column :=
  match columnTitle with
  | some t =>
    match dget s.columnTitleToColumn t with
    | some c => .ok c
    | none => .error .keyError
  | none =>
    match columnId with
    | some i =>
      match dget s.columnIdToColumn i with
      | some c => .ok c
      | none => .error .keyError
    | none => .error .valueError

/-! ### Cell value handling (models/cell.py)

`CellValueField._deserialize` coerces a raw value using the declared
type of the owning column (obtained from the schema context
`column_id_to_type[column_id]`; the embedding passes the declared type
directly).  Date and datetime strings are parsed with
`marshmallow.utils.from_iso_date` / `from_iso_datetime`, which match a
regular expression and then build a `date` / `datetime`, raising
`ValueError` (caught by the source) on a non-match or an out-of-range
component. -/

/-- Digits of a decimal numeral to its value. -/
def digitsToNat (ds : List Char) : Nat :=
  ds.foldl (fun a c => a * 10 + (c.toNat - 48)) 0

def isLeap (y : Nat) : Bool :=
  y % 4 == 0 && (y % 100 != 0 || y % 400 == 0)

def daysInMonth (y m : Nat) : Nat :=
  if m = 2 then (if isLeap y then 29 else 28)
  else if m = 4 ∨ m = 6 ∨ m = 9 ∨ m = 11 then 30
  else 31

/-- Validity conditions of `datetime.date(year, month, day)`. -/
def dateValid (y m d : Nat) : Bool :=
  decide (1 ≤ y) && decide (y ≤ 9999) && decide (1 ≤ m) && decide (m ≤ 12) &&
    decide (1 ≤ d) && decide (d ≤ daysInMonth y m)

/-- The date prefix of marshmallow's ISO-8601 regular expressions:
four year digits, a dash, one or two month digits, a dash, one or two
day digits.  Returns the numbers and the unconsumed suffix. -/
def parseDatePart (cs : List Char) : Option ((Nat × Nat × Nat) × List Char) :=
  let yr := cs.span Char.isDigit
  if yr.1.length = 4 then
    match yr.2 with
    | '-' :: r2 =>
      let mr := r2.span Char.isDigit
      if mr.1.length = 1 ∨ mr.1.length = 2 then
        match mr.2 with
        | '-' :: r4 =>
          let dr := r4.span Char.isDigit
          if dr.1.length = 1 ∨ dr.1.length = 2 then
            some ((digitsToNat yr.1, digitsToNat mr.1, digitsToNat dr.1), dr.2)
          else none
        | _ => none
      else none
    | _ => none
  else none

/-- `marshmallow.utils.from_iso_date`: the whole string must be the
date pattern, and the components must form a valid calendar date. -/
def fromIsoDate (s : String) : Option Value :=
  match parseDatePart s.data with
  | some ((y, m, d), []) => if dateValid y m d then some (.vDate y m d) else none
  | _ => none

/-- Optional `:SS[.ffffff]` group of the ISO datetime pattern: returns
seconds and microseconds (0 when absent) and the unconsumed suffix.
The microsecond group captures up to six digits (left-justified with
zeroes to six places) and ignores up to six further digits. -/
def parseSecMicro : List Char → Option ((Nat × Nat) × List Char)
  | ':' :: r =>
    let sr := r.span Char.isDigit
    if sr.1.length = 1 ∨ sr.1.length = 2 then
      match sr.2 with
      | '.' :: r3 =>
        let ur := r3.span Char.isDigit
        if 1 ≤ ur.1.length ∧ ur.1.length ≤ 12 then
          some ((digitsToNat sr.1,
                 digitsToNat (ur.1.take 6) * 10 ^ (6 - min ur.1.length 6)), ur.2)
        else none
      | _ => some ((digitsToNat sr.1, 0), sr.2)
    else none
  | cs => some ((0, 0), cs)

/-- Optional timezone suffix (`Z` or `±HH[[:]MM]`) followed by the end
of the string.  Mirrors marshmallow's offset computation and the
range check of `timezone(timedelta(minutes=offset))`, whose
`ValueError` the source catches. -/
def parseTzEnd : List Char → Option (Option Int)
  | [] => some none
  | ['Z'] => some (some 0)
  | c :: r =>
    if c = '+' ∨ c = '-' then
      match r with
      | h1 :: h2 :: rest =>
        if h1.isDigit && h2.isDigit then
          let base : Nat := 60 * digitsToNat [h1, h2]
          let sign : Int := if c = '-' then -1 else 1
          let withMins : Nat → Option (Option Int) := fun mins =>
            let offset : Int := sign * Int.ofNat (base + mins)
            if offset.natAbs ≤ 1439 then some (some offset) else none
          match rest with
          | [] => withMins 0
          | [':', m1, m2] =>
            if m1.isDigit && m2.isDigit then withMins (digitsToNat [m1, m2]) else none
          | [m1, m2] =>
            if m1.isDigit && m2.isDigit then withMins (digitsToNat [m1, m2]) else none
          | _ => none
        else none
      | _ => none
    else none

/-- Validity conditions of `datetime.datetime(...)` on the parsed
components. -/
def datetimeValid (y mo d h mi sec : Nat) : Bool :=
  dateValid y mo d && decide (h ≤ 23) && decide (mi ≤ 59) && decide (sec ≤ 59)

/-- `marshmallow.utils.from_iso_datetime`: date pattern, `T` or space,
one or two hour digits, a colon, one or two minute digits, optional
seconds/microseconds, optional timezone, end of string. -/
def fromIsoDatetime (s : String) : Option Value :=
  match parseDatePart s.data with
  | some ((y, mo, d), c :: r0) =>
    if c = 'T' ∨ c = ' ' then
      let hr := r0.span Char.isDigit
      if hr.1.length = 1 ∨ hr.1.length = 2 then
        match hr.2 with
        | ':' :: r2 =>
          let mr := r2.span Char.isDigit
          if mr.1.length = 1 ∨ mr.1.length = 2 then
            match parseSecMicro mr.2 with
            | some ((sec, micro), r4) =>
              match parseTzEnd r4 with
              | some tz =>
                if datetimeValid y mo d (digitsToNat hr.1) (digitsToNat mr.1) sec then
                  some (.vDatetime y mo d (digitsToNat hr.1) (digitsToNat mr.1)
                          sec micro tz)
                else none
              | none => none
            | none => none
          else none
        | _ => none
      else none
    else none
  | _ => none

/-- `CellValueField._deserialize`: falsy values pass through; under a
DATE column a string is parsed as an ISO date, and an unparsable
string is kept verbatim (the source logs a warning); under a DATETIME
or ABSTRACT_DATETIME column likewise with ISO datetimes (logging at
info level); every other column type passes the value through
(including the MULTI_PICKLIST stub).  A non-falsy non-string under a
date/datetime column would raise an uncaught `TypeError` inside
marshmallow (only `ValueError` is caught). -/
def cellValueDeserialize (columnType : String) (v : Value) : Except PyErr Value :=
  if v.isFalsy then .ok v
  else if columnType = "DATE" then
    match v with
    | .vStr s =>
      match fromIsoDate s with
      | some d => .ok d
      | none => .ok v
    | _ => .error .typeError
  else if columnType = "DATETIME" ∨ columnType = "ABSTRACT_DATETIME" then
    match v with
    | .vStr s =>
      match fromIsoDatetime s with
      | some d => .ok d
      | none => .ok v
    | _ => .error .typeError
  else .ok v

/-- Python `str.isdigit` (restricted to the ASCII digits, the alphabet
relevant to the modelled values). -/
def pyIsDigit (s : String) : Bool :=
  !s.isEmpty && s.data.all Char.isDigit

/-- `Cell.get_value`: the object value's list when it is non-empty,
otherwise the display value converted with `int` when it is a
non-empty digit string, otherwise the stored value. -/
def get_value (c : Cell) : GotValue :=
  let fallback : GotValue :=
    match c.displayValue with
    | some s =>
      if pyIsDigit s then .ofValue (.vInt (Int.ofNat (digitsToNat s.data)))
      else .ofValue c.value
    | none => .ofValue c.value
  match c.objectValue with
  | some ov => if ov.values.isEmpty then fallback else .ofList ov.values
  | none => fallback

/-! ### Helper lemmas -/

/-- The last element of a list, if any. -/
def lastOf {α : Type} : List α → Option α
  | [] => none
  | [a] => some a
  | _ :: b :: t => lastOf (b :: t)

/-- The last row of a list whose value tuple on `K` is `vt`. -/
def lastMatch (rows : List Row) (K : List String) (vt : List Value) : Option Row :=
  lastOf (matchingRows rows K vt)

/-- The list stored at `vt` in an index mapping (empty when the key is
absent or holds a single-row entry). -/
def prevList (idx : List (List Value × IndexEntry)) (vt : List Value) : List Row :=
  match dget idx vt with
  | some (.many rs) => rs
  | _ => []

/-! ### Concrete fixtures

A small concrete sheet with two columns `C` (id 1) and `E` (id 2) and
three rows; rows 1 and 3 share the value `a` in column `C`. -/

def colC : Column := ⟨some 1, some "C"⟩

def colE : Column := ⟨some 2, some "E"⟩

def demoCell (cid : Nat) (v : String) : Cell := ⟨some cid, none, none, .vStr v⟩

/-- A row as deserialized, before the sheet builds its lookups. -/
def demoRawRow (i n : Nat) (cv ev : String) : Row :=
  ⟨some i, some n, [demoCell 1 cv, demoCell 2 ev], [], []⟩

/-- The same row after `_update_cell_lookup` has run. -/
def demoRowB (i n : Nat) (cv ev : String) : Row :=
  ⟨some i, some n, [demoCell 1 cv, demoCell 2 ev],
   [("C", demoCell 1 cv), ("E", demoCell 2 ev)],
   [(1, demoCell 1 cv), (2, demoCell 2 ev)]⟩

def emptySheet : Sheet := ⟨"", [], [], [], [], [], [], []⟩

/-- The demo sheet with its lookups built. -/
def demoS0 : Sheet :=
  match mkSheet "demo" [colC, colE]
      [demoRawRow 11 1 "a" "x", demoRawRow 12 2 "b" "y", demoRawRow 13 3 "a" "z"] with
  | .ok s => s
  | .error _ => emptySheet

/-- The demo sheet after building a non-unique index over `C` and a
unique index over `E` in one call. -/
def demoBoth : Sheet :=
  match build_index demoS0 [⟨["C"], false⟩, ⟨["E"], true⟩] with
  | .ok s => s
  | .error _ => demoS0

/-- The demo sheet after building only a unique index over `E`. -/
def demoUniqueE : Sheet :=
  match build_index demoS0 [⟨["E"], true⟩] with
  | .ok s => s
  | .error _ => demoS0

/-- The demo sheet after building only a unique index over `C`
(rows 1 and 3 collide). -/
def demoUniqueC : Sheet :=
  match build_index demoS0 [⟨["C"], true⟩] with
  | .ok s => s
  | .error _ => demoS0

/-- The demo sheet after building only a non-unique index over `C`. -/
def demoNonuniqueC : Sheet :=
  match build_index demoS0 [⟨["C"], false⟩] with
  | .ok s => s
  | .error _ => demoS0

/-- A second `build_index` call on `demoNonuniqueC` that does not
re-specify the `C` index: the re-scan appends every row to the kept
`C` index a second time. -/
def demoDup : Sheet :=
  match build_index demoNonuniqueC [⟨["E"], true⟩] with
  | .ok s => s
  | .error _ => demoS0

/-- A row holding a cell that references column id 5, which no column
of the demo sheet has. -/
def demoBadRow : Row := ⟨some 9, some 9, [demoCell 5 "v"], [], []⟩

theorem dget_dset {K V : Type} [DecidableEq K] (m : List (K × V)) (k k2 : K) (v : V) :
    dget (dset m k v) k2 = if k2 = k then some v else dget m k2 := by
  induction m with
  | nil => simp [dget, dset]
  | cons p t ih =>
    obtain ⟨k0, v0⟩ := p
    simp only [dset]
    by_cases h0 : k0 = k
    · subst h0
      simp only [if_pos rfl, dget]
      by_cases h2 : k2 = k0
      · simp [h2]
      · simp [h2]
    · simp only [if_neg h0, dget]
      by_cases h2 : k2 = k0
      · subst h2
        simp [h0]
      · simp [h2, ih]

theorem except_bind_ok {ε α β : Type} {x : Except ε α} {f : α → Except ε β} {b : β} :
    (x >>= f) = Except.ok b ↔ ∃ a, x = Except.ok a ∧ f a = Except.ok b := by
  cases x <;> simp [Bind.bind, Except.bind]

theorem except_pure_ok {ε α : Type} {a b : α} :
    (pure a : Except ε α) = Except.ok b ↔ a = b := by
  constructor
  · intro h
    cases h
    rfl
  · intro h
    cases h
    rfl

/-- A row matches `vt` exactly when its key tuple is `.ok vt`. -/
theorem rowMatches_iff {K : List String} {vt : List Value} {r : Row} {k : List Value}
    (hk : rowKey r K = .ok k) : rowMatches K vt r = true ↔ k = vt := by
  simp [rowMatches, hk]

/-- `_update_index` processes the registered indexes pointwise: a key
present before the update is present after it, and its dict is the
result of `stepEntry` on the old dict. -/
theorem updateIndexRow_dget {r : Row} :
    ∀ {ixs ixs' : List (List String × IndexDict)} {K : List String} {d : IndexDict},
    updateIndexRow r ixs = .ok ixs' → dget ixs K = some d →
    ∃ d2, stepEntry r K d = .ok d2 ∧ dget ixs' K = some d2 := by
  intro ixs
  induction ixs with
  | nil => intro ixs' K d _ hd; simp [dget] at hd
  | cons e t ih =>
    intro ixs' K d h hd
    obtain ⟨K0, d0⟩ := e
    rw [updateIndexRow, List.mapM_cons] at h
    rw [except_bind_ok] at h
    obtain ⟨b, hb, h⟩ := h
    rw [except_bind_ok] at h
    obtain ⟨bs, hbs, h⟩ := h
    rw [except_bind_ok] at hb
    obtain ⟨d1, hd1, hb⟩ := hb
    rw [except_pure_ok] at hb h
    subst hb
    subst h
    by_cases hK : K = K0
    · subst hK
      simp only [dget, if_pos rfl] at hd
      cases hd
      exact ⟨d1, hd1, by simp [dget]⟩
    · simp only [dget, if_neg hK] at hd
      obtain ⟨d2, hstep, hget⟩ := ih hbs hd
      exact ⟨d2, hstep, by simp [dget, if_neg hK, hget]⟩

/-- Folding `_update_index` over the rows acts pointwise on each
registered index. -/
theorem foldIndex_dget :
    ∀ (rows : List Row) {ixs ixs' : List (List String × IndexDict)}
      {K : List String} {d : IndexDict},
    rows.foldlM (fun a r => updateIndexRow r a) ixs = .ok ixs' →
    dget ixs K = some d →
    ∃ d2, rows.foldlM (fun a r => stepEntry r K a) d = .ok d2 ∧
      dget ixs' K = some d2 := by
  intro rows
  induction rows with
  | nil =>
    intro ixs ixs' K d h hd
    rw [List.foldlM, except_pure_ok] at h
    subst h
    exact ⟨d, rfl, hd⟩
  | cons r t ih =>
    intro ixs ixs' K d h hd
    rw [List.foldlM, except_bind_ok] at h
    obtain ⟨a, ha, h⟩ := h
    obtain ⟨d1, hstep, hget⟩ := updateIndexRow_dget ha hd
    obtain ⟨d2, hfold, hget2⟩ := ih h hget
    refine ⟨d2, ?_, hget2⟩
    rw [List.foldlM, except_bind_ok]
    exact ⟨d1, hstep, hfold⟩

theorem lastOf_cons_isSome {α : Type} (a : α) (l : List α) :
    ∃ u, lastOf (a :: l) = some u := by
  induction l generalizing a with
  | nil => exact ⟨a, rfl⟩
  | cons b t ih => exact ih b

theorem matchingRows_cons_pos {K : List String} {vt : List Value} {r : Row}
    {t : List Row} (hm : rowMatches K vt r = true) :
    matchingRows (r :: t) K vt = r :: matchingRows t K vt := by
  simp [matchingRows, List.filter_cons, hm]

theorem matchingRows_cons_neg {K : List String} {vt : List Value} {r : Row}
    {t : List Row} (hm : ¬ rowMatches K vt r = true) :
    matchingRows (r :: t) K vt = matchingRows t K vt := by
  simp [matchingRows, List.filter_cons, hm]

/-- Folding `stepEntry` for a unique index over a list of rows: the
final mapping sends `vt` to the last matching row, falling back to the
initial mapping when no row matches. -/
theorem foldStepUnique {K : List String} :
    ∀ (rows : List Row) (idx : List (List Value × IndexEntry)) {d' : IndexDict},
    rows.foldlM (fun a r => stepEntry r K a) ⟨true, idx⟩ = .ok d' →
    d'.unique = true ∧ ∀ vt, dget d'.index vt =
      match lastMatch rows K vt with
      | some u => some (.one u)
      | none => dget idx vt := by
  intro rows
  induction rows with
  | nil =>
    intro idx d' h
    rw [List.foldlM, except_pure_ok] at h
    subst h
    exact ⟨rfl, fun vt => by simp [lastMatch, matchingRows, lastOf]⟩
  | cons r t ih =>
    intro idx d' h
    rw [List.foldlM, except_bind_ok] at h
    obtain ⟨a, ha, hfold⟩ := h
    simp only [stepEntry, if_pos] at ha
    rw [except_bind_ok] at ha
    obtain ⟨key, hkey, hp⟩ := ha
    rw [except_pure_ok] at hp
    subst hp
    obtain ⟨hu, hix⟩ := ih (dset idx key (.one r)) hfold
    refine ⟨hu, fun vt => ?_⟩
    rw [hix vt]
    simp only [lastMatch]
    by_cases hm : rowMatches K vt r
    · have hkvt : key = vt := (rowMatches_iff hkey).mp hm
      subst hkvt
      rw [matchingRows_cons_pos hm]
      cases hmt : matchingRows t K key with
      | nil =>
        simp [lastOf, dget_dset]
      | cons m ms =>
        obtain ⟨u, hu2⟩ := lastOf_cons_isSome m ms
        simp [lastOf, hu2]
    · have hne : vt ≠ key := by
        intro hvk
        subst hvk
        exact hm ((rowMatches_iff hkey).mpr rfl)
      rw [matchingRows_cons_neg hm]
      cases hmt : matchingRows t K vt with
      | nil =>
        simp [lastOf, dget_dset, hne]
      | cons m ms =>
        obtain ⟨u, hu2⟩ := lastOf_cons_isSome m ms
        simp [hu2]

/-- Folding `stepEntry` for a non-unique index over a list of rows:
the final mapping sends `vt` to the previously stored list extended
with the matching rows in order, falling back to the initial mapping
when no row matches. -/
theorem foldStepNonUnique {K : List String} :
    ∀ (rows : List Row) (idx : List (List Value × IndexEntry)) {d' : IndexDict},
    rows.foldlM (fun a r => stepEntry r K a) ⟨false, idx⟩ = .ok d' →
    d'.unique = false ∧ ∀ vt, dget d'.index vt =
      match matchingRows rows K vt with
      | [] => dget idx vt
      | ms => some (.many (prevList idx vt ++ ms)) := by
  intro rows
  induction rows with
  | nil =>
    intro idx d' h
    rw [List.foldlM, except_pure_ok] at h
    subst h
    exact ⟨rfl, fun vt => by simp [matchingRows]⟩
  | cons r t ih =>
    intro idx d' h
    rw [List.foldlM, except_bind_ok] at h
    obtain ⟨a, ha, hfold⟩ := h
    simp only [stepEntry, Bool.false_eq_true, if_false] at ha
    rw [except_bind_ok] at ha
    obtain ⟨key, hkey, hp⟩ := ha
    cases hidx : dget idx key with
    | none =>
      rw [hidx, except_pure_ok] at hp
      subst hp
      obtain ⟨hu, hix⟩ := ih (dset idx key (.many [r])) hfold
      refine ⟨hu, fun vt => ?_⟩
      rw [hix vt]
      by_cases hm : rowMatches K vt r
      · have hkvt : key = vt := (rowMatches_iff hkey).mp hm
        subst hkvt
        rw [matchingRows_cons_pos hm]
        cases hmt : matchingRows t K key with
        | nil => simp [dget_dset, prevList, hidx]
        | cons m ms => simp [prevList, dget_dset, hidx]
      · have hne : vt ≠ key := by
          intro hvk
          subst hvk
          exact hm ((rowMatches_iff hkey).mpr rfl)
        rw [matchingRows_cons_neg hm]
        cases hmt : matchingRows t K vt with
        | nil => simp [dget_dset, hne]
        | cons m ms => simp [prevList, dget_dset, hne]
    | some e =>
      cases e with
      | one r0 =>
        rw [hidx] at hp
        cases hp
      | many rs =>
        rw [hidx, except_pure_ok] at hp
        subst hp
        obtain ⟨hu, hix⟩ := ih (dset idx key (.many (rs ++ [r]))) hfold
        refine ⟨hu, fun vt => ?_⟩
        rw [hix vt]
        by_cases hm : rowMatches K vt r
        · have hkvt : key = vt := (rowMatches_iff hkey).mp hm
          subst hkvt
          rw [matchingRows_cons_pos hm]
          cases hmt : matchingRows t K key with
          | nil => simp [dget_dset, prevList, hidx]
          | cons m ms => simp [prevList, dget_dset, hidx]
        · have hne : vt ≠ key := by
            intro hvk
            subst hvk
            exact hm ((rowMatches_iff hkey).mpr rfl)
          rw [matchingRows_cons_neg hm]
          cases hmt : matchingRows t K vt with
          | nil => simp [dget_dset, hne]
          | cons m ms => simp [prevList, dget_dset, hne]

/-- `build_index` only changes the `indexes` attribute; the resulting
indexes are the fold of `_update_index` over the rows starting from
the registered specs. -/
theorem build_index_parts {s : Sheet} {specs : List IndexSpec} {s' : Sheet}
    (h : build_index s specs = .ok s') :
    s'.name = s.name ∧ s'.columns = s.columns ∧ s'.rows = s.rows ∧
    s'.rowNumToRow = s.rowNumToRow ∧ s'.rowIdToRow = s.rowIdToRow ∧
    s'.columnTitleToColumn = s.columnTitleToColumn ∧
    s'.columnIdToColumn = s.columnIdToColumn ∧
    s.rows.foldlM (fun a r => updateIndexRow r a)
      (registerSpecs s.indexes specs) = .ok s'.indexes := by
  rw [build_index, except_bind_ok] at h
  obtain ⟨ixs, hfold, hp⟩ := h
  rw [except_pure_ok] at hp
  subst hp
  exact ⟨rfl, rfl, rfl, rfl, rfl, rfl, rfl, hfold⟩

/-- After a successful `build_index` call, every index that the call
(re)registered as unique with a fresh empty mapping sends each value
tuple to the last row of the sheet matching it (silent overwrite),
and to nothing when no row matches. -/
theorem build_registered_unique {s : Sheet} {specs : List IndexSpec} {s' : Sheet}
    {K : List String} (h : build_index s specs = .ok s')
    (hreg : dget (registerSpecs s.indexes specs) K = some ⟨true, []⟩) :
    ∃ idx, dget s'.indexes K = some ⟨true, idx⟩ ∧
      ∀ vt, dget idx vt =
        match lastMatch s.rows K vt with
        | some u => some (.one u)
        | none => none := by
  obtain ⟨_, _, _, _, _, _, _, hfold⟩ := build_index_parts h
  obtain ⟨d2, hstepfold, hget⟩ := foldIndex_dget s.rows hfold hreg
  obtain ⟨hu, hix⟩ := foldStepUnique s.rows [] hstepfold
  obtain ⟨u0, ix0⟩ := d2
  simp only at hu
  subst hu
  refine ⟨ix0, hget, fun vt => ?_⟩
  have := hix vt
  simp only at this
  rw [this]
  cases lastMatch s.rows K vt <;> simp [dget]

/-- After a successful `build_index` call, every index that the call
(re)registered as non-unique with a fresh empty mapping sends each
value tuple to the ordered list of matching rows, and to nothing when
no row matches. -/
theorem build_registered_nonunique {s : Sheet} {specs : List IndexSpec} {s' : Sheet}
    {K : List String} (h : build_index s specs = .ok s')
    (hreg : dget (registerSpecs s.indexes specs) K = some ⟨false, []⟩) :
    ∃ idx, dget s'.indexes K = some ⟨false, idx⟩ ∧
      ∀ vt, dget idx vt =
        match matchingRows s.rows K vt with
        | [] => none
        | ms => some (.many ms) := by
  obtain ⟨_, _, _, _, _, _, _, hfold⟩ := build_index_parts h
  obtain ⟨d2, hstepfold, hget⟩ := foldIndex_dget s.rows hfold hreg
  obtain ⟨hu, hix⟩ := foldStepNonUnique s.rows [] hstepfold
  obtain ⟨u0, ix0⟩ := d2
  simp only at hu
  subst hu
  refine ⟨ix0, hget, fun vt => ?_⟩
  have := hix vt
  simp only at this
  rw [this]
  cases matchingRows s.rows K vt <;> simp [dget, prevList]

/-- On a sheet with no previously built indexes, registering a single
spec yields exactly that one fresh index. -/
theorem registerSpecs_single {s : Sheet} {K : List String} {u : Bool}
    (h0 : s.indexes = []) :
    registerSpecs s.indexes [⟨K, u⟩] = [(K, ⟨u, []⟩)] := by
  simp [registerSpecs, h0, dset]

/-- `build_index` with a single unique spec on a sheet with no
previously built indexes succeeds whenever every row has a cell for
every key column. -/
theorem build_fresh_unique_ok {s : Sheet} {K : List String}
    (h0 : s.indexes = []) (hk : ∀ r ∈ s.rows, ∃ k, rowKey r K = .ok k) :
    ∃ s', build_index s [⟨K, true⟩] = .ok s' := by
  have hs : ∀ (rows : List Row) (d : IndexDict), d.unique = true →
      (∀ r ∈ rows, ∃ k, rowKey r K = .ok k) →
      ∃ ixs', rows.foldlM (fun a r => updateIndexRow r a) [(K, d)] = .ok ixs' := by
    intro rows
    induction rows with
    | nil => exact fun d _ _ => ⟨[(K, d)], rfl⟩
    | cons r t ih =>
      intro d hd hkr
      obtain ⟨k, hkk⟩ := hkr r (by simp)
      have hstep : stepEntry r K d = .ok ⟨d.unique, dset d.index k (.one r)⟩ := by
        rw [stepEntry, hkk]
        simp [Bind.bind, Except.bind, hd, pure, Except.pure]
      have hrow : updateIndexRow r [(K, d)]
          = .ok [(K, ⟨d.unique, dset d.index k (.one r)⟩)] := by
        rw [updateIndexRow, List.mapM_cons, hstep]
        simp [Bind.bind, Except.bind, List.mapM_nil]
        rfl
      obtain ⟨ixs', hfold⟩ := ih ⟨d.unique, dset d.index k (.one r)⟩ (by simpa using hd)
        (fun r2 hr2 => hkr r2 (by simp [hr2]))
      refine ⟨ixs', ?_⟩
      rw [List.foldlM, hrow]
      simpa [Bind.bind, Except.bind] using hfold
  obtain ⟨ixs', hfold⟩ := hs s.rows ⟨true, []⟩ rfl hk
  refine ⟨⟨s.name, s.columns, s.rows, s.rowNumToRow, s.rowIdToRow,
           s.columnTitleToColumn, s.columnIdToColumn, ixs'⟩, ?_⟩
  rw [build_index, registerSpecs_single h0, hfold]
  rfl

/-- Reduction of the filter branch of `get_row` once the sorted filter
items are known. -/
theorem get_row_filter_resolve {s : Sheet} {f : List (String × Value)}
    {p : String × Value} {l : List (String × Value)}
    (hf : sortedItems f = p :: l) :
    get_row s none none (some f) =
      match dget s.indexes ((p :: l).map Prod.fst) with
      | none => .error .indexNotFound
      | some d =>
        if d.unique then
          match dget d.index ((p :: l).map Prod.snd) with
          | some (.one r) => .ok (some r)
          | some (.many _) => .error .nonRowEntry
          | none => .error .keyError
        else .error .indexNotUnique := by
  simp only [get_row, hf]

/-- Reduction of `get_rows` once the sorted filter items are known. -/
theorem get_rows_filter_resolve {s : Sheet} {f : List (String × Value)}
    {p : String × Value} {l : List (String × Value)}
    (hf : sortedItems f = p :: l) :
    get_rows s f =
      match dget s.indexes ((p :: l).map Prod.fst) with
      | none => .error .indexNotFound
      | some d =>
        if d.unique then
          match dget d.index ((p :: l).map Prod.snd) with
          | some (.one r) => .ok [r]
          | some (.many _) => .error .nonRowEntry
          | none => .ok []
        else
          match dget d.index ((p :: l).map Prod.snd) with
          | some (.many rs) => .ok rs
          | some (.one _) => .error .nonRowEntry
          | none => .ok [] := by
  simp only [get_rows, hf]

/-- Folding the cell-lookup rebuild over a cell list that contains a
cell referencing an unknown column id raises `KeyError`, whatever the
accumulated lookups are. -/
theorem cellLookups_err_aux (m : List (Nat × Column)) :
    ∀ (cells : List Cell) (acc : List (String × Cell) × List (Nat × Cell)),
    (∃ c ∈ cells, ∃ cid, c.columnId = some cid ∧ dget m cid = none) →
    cells.foldlM (cellLookupFold m) acc = .error .keyError := by
  intro cells
  induction cells with
  | nil =>
    intro acc h
    obtain ⟨c, hc, _⟩ := h
    simp at hc
  | cons c t ih =>
    intro acc h
    obtain ⟨c0, hc0, cid, hcid, hget⟩ := h
    rw [List.foldlM]
    cases hcc : c.columnId with
    | none =>
      have hct : c0 ∈ t := by
        rcases List.mem_cons.mp hc0 with h1 | h1
        · subst h1
          rw [hcc] at hcid
          cases hcid
        · exact h1
      have hstep : cellLookupFold m acc c = .ok acc := by
        simp [cellLookupFold, hcc]
      rw [hstep]
      simpa [Bind.bind, Except.bind] using ih acc ⟨c0, hct, cid, hcid, hget⟩
    | some cid2 =>
      cases hd2 : dget m cid2 with
      | none =>
        have hstep : cellLookupFold m acc c = .error .keyError := by
          simp [cellLookupFold, hcc, hd2]
        rw [hstep]
        rfl
      | some col =>
        have hct : c0 ∈ t := by
          rcases List.mem_cons.mp hc0 with h1 | h1
          · subst h1
            rw [hcc] at hcid
            cases hcid
            rw [hd2] at hget
            cases hget
          · exact h1
        cases hcol : col.title with
        | none =>
          have hstep : cellLookupFold m acc c = .ok (acc.1, dset acc.2 cid2 c) := by
            simp [cellLookupFold, hcc, hd2, hcol]
          rw [hstep]
          simpa [Bind.bind, Except.bind] using
            ih (acc.1, dset acc.2 cid2 c) ⟨c0, hct, cid, hcid, hget⟩
        | some ttl =>
          have hstep : cellLookupFold m acc c
              = .ok (dset acc.1 ttl c, dset acc.2 cid2 c) := by
            simp [cellLookupFold, hcc, hd2, hcol]
          rw [hstep]
          simpa [Bind.bind, Except.bind] using
            ih (dset acc.1 ttl c, dset acc.2 cid2 c) ⟨c0, hct, cid, hcid, hget⟩

/-! ### Claims -/

/-- C9: a cell value deserialized under a DATE column converts an ISO
date string (e.g. "1990-01-01") to the calendar date, keeps an
unparsable date string verbatim, keeps an unparsable datetime string
verbatim under DATETIME/ABSTRACT_DATETIME columns, and never raises
for any string value under any column type. -/
theorem claim9_date_deserialize :
    cellValueDeserialize "DATE" (.vStr "1990-01-01") = .ok (.vDate 1990 1 1)
    ∧ (∀ s : String, fromIsoDate s = none →
        cellValueDeserialize "DATE" (.vStr s) = .ok (.vStr s))
    ∧ (∀ (ct : String) (s : String), ct = "DATETIME" ∨ ct = "ABSTRACT_DATETIME" →
        fromIsoDatetime s = none →
        cellValueDeserialize ct (.vStr s) = .ok (.vStr s))
    ∧ (∀ (ct : String) (s : String), ∃ v, cellValueDeserialize ct (.vStr s) = .ok v) := by
  refine ⟨rfl, ?_, ?_, ?_⟩
  · intro s h
    by_cases hfe : (Value.vStr s).isFalsy
    · simp [cellValueDeserialize, hfe]
    · simp [cellValueDeserialize, hfe, h]
  · intro ct s hct h
    by_cases hfe : (Value.vStr s).isFalsy
    · simp [cellValueDeserialize, hfe]
    · rcases hct with hct | hct <;> subst hct <;> simp [cellValueDeserialize, hfe, h]
  · intro ct s
    by_cases hfe : (Value.vStr s).isFalsy
    · exact ⟨.vStr s, by simp [cellValueDeserialize, hfe]⟩
    · by_cases h1 : ct = "DATE"
      · subst h1
        cases hp : fromIsoDate s with
        | none => exact ⟨.vStr s, by simp [cellValueDeserialize, hfe, hp]⟩
        | some d => exact ⟨d, by simp [cellValueDeserialize, hfe, hp]⟩
      · by_cases h2 : ct = "DATETIME" ∨ ct = "ABSTRACT_DATETIME"
        · cases hp : fromIsoDatetime s with
          | none => exact ⟨.vStr s, by simp [cellValueDeserialize, hfe, h1, h2, hp]⟩
          | some d => exact ⟨d, by simp [cellValueDeserialize, hfe, h1, h2, hp]⟩
        · exact ⟨.vStr s, by simp [cellValueDeserialize, hfe, h1, h2]⟩

/-- C9 witness: the theorem applied to the unparsable strings `"oops"`. -/
theorem claim9_witness :
    fromIsoDate "oops" = none
    ∧ cellValueDeserialize "DATE" (.vStr "oops") = .ok (.vStr "oops")
    ∧ fromIsoDatetime "oops" = none
    ∧ cellValueDeserialize "DATETIME" (.vStr "oops") = .ok (.vStr "oops")
    ∧ ∃ v, cellValueDeserialize "TEXT_NUMBER" (.vStr "oops") = .ok v :=
  ⟨rfl, claim9_date_deserialize.2.1 "oops" rfl,
   rfl, claim9_date_deserialize.2.2.1 "DATETIME" "oops" (Or.inl rfl) rfl,
   claim9_date_deserialize.2.2.2 "TEXT_NUMBER" "oops"⟩

/-- C10: `get_value` returns the object value's list when it is
non-empty; otherwise the display value converted to an integer when it
is a non-empty digit string; otherwise the stored value unchanged. -/
theorem claim10_get_value :
    (∀ (c : Cell) (ov : ObjectValue), c.objectValue = some ov → ov.values ≠ [] →
        get_value c = .ofList ov.values)
    ∧ (∀ (c : Cell) (s : String),
        (c.objectValue = none ∨ ∃ ov, c.objectValue = some ov ∧ ov.values = []) →
        c.displayValue = some s → pyIsDigit s = true →
        get_value c = .ofValue (.vInt (Int.ofNat (digitsToNat s.data))))
    ∧ (∀ c : Cell,
        (c.objectValue = none ∨ ∃ ov, c.objectValue = some ov ∧ ov.values = []) →
        (c.displayValue = none ∨ ∃ s, c.displayValue = some s ∧ pyIsDigit s = false) →
        get_value c = .ofValue c.value) := by
  refine ⟨?_, ?_, ?_⟩
  · intro c ov hov hne
    have hemp : ov.values.isEmpty = false := by
      cases hv : ov.values with
      | nil => exact absurd hv hne
      | cons a t => rfl
    simp [get_value, hov, hemp]
  · intro c s hov hdisp hdig
    rcases hov with hov | ⟨ov, hov, hemp⟩
    · simp [get_value, hov, hdisp, hdig]
    · simp [get_value, hov, hemp, hdisp, hdig]
  · intro c hov hdisp
    rcases hov with hov | ⟨ov, hov, hemp⟩
    · rcases hdisp with hd | ⟨s, hd, hdig⟩
      · simp [get_value, hov, hd]
      · simp [get_value, hov, hd, hdig]
    · rcases hdisp with hd | ⟨s, hd, hdig⟩
      · simp [get_value, hov, hemp, hd]
      · simp [get_value, hov, hemp, hd, hdig]

/-- C10 witness: the theorem applied to three concrete cells. -/
theorem claim10_witness :
    get_value ⟨some 1, none, some ⟨"MULTI_PICKLIST", [.vStr "p"]⟩, .vNone⟩
      = .ofList [.vStr "p"]
    ∧ get_value ⟨some 1, some "42", none, .vStr "42.0"⟩ = .ofValue (.vInt 42)
    ∧ get_value ⟨some 1, some "4a", none, .vStr "4a"⟩ = .ofValue (.vStr "4a") := by
  refine ⟨claim10_get_value.1 _ ⟨"MULTI_PICKLIST", [.vStr "p"]⟩ rfl (by simp), ?_, ?_⟩
  · exact claim10_get_value.2.1 ⟨some 1, some "42", none, .vStr "42.0"⟩ "42"
      (Or.inl rfl) rfl rfl
  · exact claim10_get_value.2.2 ⟨some 1, some "4a", none, .vStr "4a"⟩
      (Or.inl rfl) (Or.inr ⟨"4a", rfl, rfl⟩)

/-- C7 counterexample: supplying more than one selector does not fail:
`get_cell` with both a title and an id returns the cell found by
title, and `get_row` with both a row number and a row id returns the
row found by number; neither fails with the `ValueError` that the
claim requires. -/
theorem claim7_counterexample :
    get_cell (demoRowB 11 1 "a" "x") (some "C") (some 2) = .ok (demoCell 1 "a")
    ∧ get_cell (demoRowB 11 1 "a" "x") (some "C") (some 2) ≠ .error .valueError
    ∧ get_row demoS0 (some 1) (some 12) none = .ok (some (demoRowB 11 1 "a" "x"))
    ∧ get_row demoS0 (some 1) (some 12) none ≠ .error .valueError := by
  refine ⟨rfl, ?_, rfl, ?_⟩
  · have h : get_cell (demoRowB 11 1 "a" "x") (some "C") (some 2)
        = .ok (demoCell 1 "a") := rfl
    rw [h]
    simp
  · have h : get_row demoS0 (some 1) (some 12) none
        = .ok (some (demoRowB 11 1 "a" "x")) := rfl
    rw [h]
    simp

/-- C7 amended: supplying none of the mutually exclusive selector
arguments fails with `ValueError`; supplying more than one does not
fail — the highest-priority selector is used and the others are
ignored (column title over column id; row number over row id over
filter). -/
theorem claim7_amended :
    (∀ r : Row, get_cell r none none = .error .valueError)
    ∧ (∀ s : Sheet, get_row s none none none = .error .valueError)
    ∧ (∀ (r : Row) (t : String) (i : Nat),
        get_cell r (some t) (some i) = get_cell r (some t) none)
    ∧ (∀ (s : Sheet) (n : Nat) (rid : Option Nat)
        (f : Option (List (String × Value))),
        get_row s (some n) rid f = get_row s (some n) none none)
    ∧ (∀ (s : Sheet) (i : Nat) (f : Option (List (String × Value))),
        get_row s none (some i) f = get_row s none (some i) none) :=
  ⟨fun _ => rfl, fun _ => rfl, fun _ _ _ => rfl, fun _ _ _ _ => rfl, fun _ _ _ => rfl⟩

/-- C6 counterexample: a cell referencing an unknown column id is not
skipped: the cell-lookup rebuild (and hence sheet construction) raises
`KeyError` instead of completing. -/
theorem claim6_counterexample :
    cellLookups [(1, colC), (2, colE)] [demoCell 5 "v"] = .error .keyError
    ∧ mkSheet "bad" [colC, colE] [demoBadRow] = .error .keyError := by
  exact ⟨rfl, rfl⟩

/-- C6 amended: during a row's cell-lookup rebuild, a cell whose
column id is `None` is skipped without error (it merely becomes
unreachable through the lookups while remaining in the row's cell
list), but a cell referencing a column id absent from the sheet's
column index makes the rebuild raise `KeyError` (via `get_column`'s
dict subscript) instead of being skipped. -/
theorem claim6_amended :
    (∀ (m : List (Nat × Column)) (c : Cell) (cs : List Cell), c.columnId = none →
        cellLookups m (c :: cs) = cellLookups m cs)
    ∧ (∀ (m : List (Nat × Column)) (cells : List Cell),
        (∃ c ∈ cells, ∃ cid, c.columnId = some cid ∧ dget m cid = none) →
        cellLookups m cells = .error .keyError) := by
  constructor
  · intro m c cs h
    rw [cellLookups, List.foldlM]
    have hstep : cellLookupFold m ([], []) c = .ok ([], []) := by
      simp [cellLookupFold, h]
    rw [hstep]
    rfl
  · intro m cells h
    exact cellLookups_err_aux m cells ([], []) h

/-- C6 witness: the theorem applied to a concrete column map and cell
lists. -/
theorem claim6_witness :
    cellLookups [(1, colC)] [⟨none, none, none, .vStr "q"⟩, demoCell 1 "a"]
      = cellLookups [(1, colC)] [demoCell 1 "a"]
    ∧ cellLookups [(1, colC)] [demoCell 1 "a", demoCell 5 "v"]
      = .error .keyError := by
  refine ⟨claim6_amended.1 [(1, colC)] ⟨none, none, none, .vStr "q"⟩
      [demoCell 1 "a"] rfl, ?_⟩
  exact claim6_amended.2 [(1, colC)] [demoCell 1 "a", demoCell 5 "v"]
    ⟨demoCell 5 "v", by simp, 5, rfl, rfl⟩

/-- C3 counterexample: the empty filter was never passed to
`build_index` (the demo sheet has no indexes at all), yet querying it
raises `ValueError` — from unpacking `zip(*sorted({}.items()))` —
rather than the `IndexNotFound` the claim requires. -/
theorem claim3_counterexample :
    get_rows demoS0 [] = .error .valueError
    ∧ get_rows demoS0 [] ≠ .error .indexNotFound
    ∧ get_row demoS0 none none (some []) = .error .valueError
    ∧ get_row demoS0 none none (some []) ≠ .error .indexNotFound := by
  refine ⟨rfl, ?_, rfl, ?_⟩
  · have h : get_rows demoS0 [] = .error .valueError := rfl
    rw [h]
    simp
  · have h : get_row demoS0 none none (some [])
        = (.error .valueError : Except PyErr (Option Row)) := rfl
    rw [h]
    simp

/-- C3 amended: querying `get_row` or `get_rows` with a non-empty
filter whose sorted column-title tuple is not a registered index key
raises `IndexNotFound` (the filter's column set must match a
registered spec exactly after sorting); the empty filter instead
raises `ValueError` from tuple unpacking before any index lookup. -/
theorem claim3_amended :
    (∀ (s : Sheet) (f : List (String × Value)) (p : String × Value)
        (l : List (String × Value)),
        sortedItems f = p :: l →
        dget s.indexes ((p :: l).map Prod.fst) = none →
        get_row s none none (some f) = .error .indexNotFound
        ∧ get_rows s f = .error .indexNotFound)
    ∧ (∀ s : Sheet,
        get_row s none none (some []) = .error .valueError
        ∧ get_rows s [] = .error .valueError) := by
  constructor
  · intro s f p l hf hd
    constructor
    · rw [get_row_filter_resolve hf, hd]
    · rw [get_rows_filter_resolve hf, hd]
  · exact fun s => ⟨rfl, rfl⟩

/-- C3 witness: the theorem applied to the demo sheet (which has no
index over the column `Q`). -/
theorem claim3_witness :
    get_row demoS0 none none (some [("Q", Value.vStr "a")]) = .error .indexNotFound
    ∧ get_rows demoS0 [("Q", Value.vStr "a")] = .error .indexNotFound :=
  claim3_amended.1 demoS0 [("Q", Value.vStr "a")] ("Q", Value.vStr "a") [] rfl rfl

/-- C4: `get_row` with a filter that resolves to a non-unique index
raises `IndexNotUnique` before any value lookup (the conclusion does
not depend on the index's contents or on the query values), and
`get_rows` never raises `IndexNotUnique`. -/
theorem claim4_index_not_unique :
    (∀ (s : Sheet) (f : List (String × Value)) (p : String × Value)
        (l : List (String × Value)) (d : IndexDict),
        sortedItems f = p :: l →
        dget s.indexes ((p :: l).map Prod.fst) = some d →
        d.unique = false →
        get_row s none none (some f) = .error .indexNotUnique)
    ∧ (∀ (s : Sheet) (f : List (String × Value)),
        get_rows s f ≠ .error .indexNotUnique) := by
  constructor
  · intro s f p l d hf hd hu
    rw [get_row_filter_resolve hf, hd]
    simp [hu]
  · intro s f h
    simp only [get_rows] at h
    split at h
    · simp at h
    · split at h
      · simp at h
      · split at h
        · split at h <;> simp at h
        · split at h <;> simp at h

/-- C4 witness: the theorem applied to the demo sheet with the
non-unique `C` index (with a query value that is present, showing the
uniqueness error wins over the value lookup) and to concrete
`get_rows` calls. -/
theorem claim4_witness :
    get_row demoNonuniqueC none none (some [("C", Value.vStr "a")])
      = .error .indexNotUnique
    ∧ get_row demoNonuniqueC none none (some [("C", Value.vStr "zz")])
      = .error .indexNotUnique := by
  constructor
  · exact claim4_index_not_unique.1 demoNonuniqueC [("C", Value.vStr "a")]
      ("C", Value.vStr "a") []
      ⟨false, [([Value.vStr "a"], .many [demoRowB 11 1 "a" "x", demoRowB 13 3 "a" "z"]),
               ([Value.vStr "b"], .many [demoRowB 12 2 "b" "y"])]⟩ rfl rfl rfl
  · exact claim4_index_not_unique.1 demoNonuniqueC [("C", Value.vStr "zz")]
      ("C", Value.vStr "zz") []
      ⟨false, [([Value.vStr "a"], .many [demoRowB 11 1 "a" "x", demoRowB 13 3 "a" "z"]),
               ([Value.vStr "b"], .many [demoRowB 12 2 "b" "y"])]⟩ rfl rfl rfl

/-- C5: `get_rows` against a freshly built non-unique index returns
the ordered list of rows matching the filter's value tuple (the empty
list when none matches); against a freshly built unique index it
returns the single stored row wrapped in a list when the value tuple
is present and the empty list when absent; in particular, on the
concrete sheet whose rows 1 and 3 share the `C` value `a`, a single
build followed by `get_rows` on that value returns `[row1, row3]` in
that order. -/
theorem claim5_get_rows :
    (∀ (s : Sheet) (K : List String) (s' : Sheet) (f : List (String × Value))
        (p : String × Value) (l : List (String × Value)) (vt : List Value),
        s.indexes = [] →
        build_index s [⟨K, false⟩] = .ok s' →
        sortedItems f = p :: l →
        (p :: l).map Prod.fst = K →
        (p :: l).map Prod.snd = vt →
        get_rows s' f = .ok (matchingRows s.rows K vt))
    ∧ (∀ (s : Sheet) (K : List String) (s' : Sheet) (f : List (String × Value))
        (p : String × Value) (l : List (String × Value)) (vt : List Value) (r : Row),
        s.indexes = [] →
        build_index s [⟨K, true⟩] = .ok s' →
        sortedItems f = p :: l →
        (p :: l).map Prod.fst = K →
        (p :: l).map Prod.snd = vt →
        lastMatch s.rows K vt = some r →
        get_rows s' f = .ok [r])
    ∧ (∀ (s : Sheet) (K : List String) (s' : Sheet) (f : List (String × Value))
        (p : String × Value) (l : List (String × Value)) (vt : List Value),
        s.indexes = [] →
        build_index s [⟨K, true⟩] = .ok s' →
        sortedItems f = p :: l →
        (p :: l).map Prod.fst = K →
        (p :: l).map Prod.snd = vt →
        lastMatch s.rows K vt = none →
        get_rows s' f = .ok [])
    ∧ (build_index demoS0 [⟨["C"], false⟩, ⟨["E"], true⟩] = .ok demoBoth
        ∧ get_rows demoBoth [("C", Value.vStr "a")]
            = .ok [demoRowB 11 1 "a" "x", demoRowB 13 3 "a" "z"]
        ∧ get_rows demoBoth [("E", Value.vStr "y")] = .ok [demoRowB 12 2 "b" "y"]
        ∧ get_rows demoBoth [("E", Value.vStr "w")] = .ok []) := by
  refine ⟨?_, ?_, ?_, rfl, rfl, rfl, rfl⟩
  · intro s K s' f p l vt h0 hb hf hc hq
    have hreg : dget (registerSpecs s.indexes [⟨K, false⟩]) K = some ⟨false, []⟩ := by
      rw [registerSpecs_single h0]
      simp [dget]
    obtain ⟨idx, hgi, hix⟩ := build_registered_nonunique hb hreg
    rw [get_rows_filter_resolve hf, hc, hq, hgi]
    cases hmt : matchingRows s.rows K vt with
    | nil => simp [hix, hmt]
    | cons m ms => simp [hix, hmt]
  · intro s K s' f p l vt r h0 hb hf hc hq hlast
    have hreg : dget (registerSpecs s.indexes [⟨K, true⟩]) K = some ⟨true, []⟩ := by
      rw [registerSpecs_single h0]
      simp [dget]
    obtain ⟨idx, hgi, hix⟩ := build_registered_unique hb hreg
    rw [get_rows_filter_resolve hf, hc, hq, hgi]
    simp [hix, hlast]
  · intro s K s' f p l vt h0 hb hf hc hq hlast
    have hreg : dget (registerSpecs s.indexes [⟨K, true⟩]) K = some ⟨true, []⟩ := by
      rw [registerSpecs_single h0]
      simp [dget]
    obtain ⟨idx, hgi, hix⟩ := build_registered_unique hb hreg
    rw [get_rows_filter_resolve hf, hc, hq, hgi]
    simp [hix, hlast]

/-- C5 witness: the theorem applied to the concrete non-unique and
unique demo builds. -/
theorem claim5_witness :
    get_rows demoNonuniqueC [("C", Value.vStr "a")]
      = .ok (matchingRows demoS0.rows ["C"] [Value.vStr "a"])
    ∧ get_rows demoUniqueE [("E", Value.vStr "y")] = .ok [demoRowB 12 2 "b" "y"]
    ∧ get_rows demoUniqueE [("E", Value.vStr "w")] = .ok [] := by
  refine ⟨?_, ?_, ?_⟩
  · exact claim5_get_rows.1 demoS0 ["C"] demoNonuniqueC [("C", Value.vStr "a")]
      ("C", Value.vStr "a") [] [Value.vStr "a"] rfl rfl rfl rfl rfl
  · exact claim5_get_rows.2.1 demoS0 ["E"] demoUniqueE [("E", Value.vStr "y")]
      ("E", Value.vStr "y") [] [Value.vStr "y"] (demoRowB 12 2 "b" "y")
      rfl rfl rfl rfl rfl rfl
  · exact claim5_get_rows.2.2.1 demoS0 ["E"] demoUniqueE [("E", Value.vStr "w")]
      ("E", Value.vStr "w") [] [Value.vStr "w"] rfl rfl rfl rfl rfl rfl

/-- C1 counterexample: on the demo sheet with a freshly built unique
index over `E`, a filter value matching no row makes `get_row` raise
`KeyError` (`index[query]` is a dict subscript) instead of returning a
not-found result (`None`). -/
theorem claim1_counterexample :
    build_index demoS0 [⟨["E"], true⟩] = .ok demoUniqueE
    ∧ get_row demoUniqueE none none (some [("E", Value.vStr "w")])
        = .error .keyError
    ∧ get_row demoUniqueE none none (some [("E", Value.vStr "w")])
        ≠ .ok none := by
  refine ⟨rfl, rfl, ?_⟩
  have h : get_row demoUniqueE none none (some [("E", Value.vStr "w")])
      = (.error .keyError : Except PyErr (Option Row)) := rfl
  rw [h]
  simp

/-- C1 amended: with a unique index freshly built over key columns
`K`, a non-empty filter over exactly those columns returns the unique
matching row when exactly one row's value tuple equals the filter's;
when no row matches, `get_row` raises `KeyError` rather than
returning a not-found result. -/
theorem claim1_amended :
    ∀ (s : Sheet) (K : List String) (s' : Sheet) (f : List (String × Value))
      (p : String × Value) (l : List (String × Value)) (vt : List Value),
      s.indexes = [] →
      build_index s [⟨K, true⟩] = .ok s' →
      sortedItems f = p :: l →
      (p :: l).map Prod.fst = K →
      (p :: l).map Prod.snd = vt →
      (∀ r : Row, matchingRows s.rows K vt = [r] →
        get_row s' none none (some f) = .ok (some r))
      ∧ (matchingRows s.rows K vt = [] →
        get_row s' none none (some f) = .error .keyError) := by
  intro s K s' f p l vt h0 hb hf hc hq
  have hreg : dget (registerSpecs s.indexes [⟨K, true⟩]) K = some ⟨true, []⟩ := by
    rw [registerSpecs_single h0]
    simp [dget]
  obtain ⟨idx, hgi, hix⟩ := build_registered_unique hb hreg
  constructor
  · intro r hm
    rw [get_row_filter_resolve hf, hc, hq, hgi]
    simp [hix, lastMatch, hm, lastOf]
  · intro hm
    rw [get_row_filter_resolve hf, hc, hq, hgi]
    simp [hix, lastMatch, hm, lastOf]

/-- C1 witness: the theorem applied to the demo sheet with the unique
`E` index, at a filter matching exactly one row and at a filter
matching none. -/
theorem claim1_amended_witness :
    get_row demoUniqueE none none (some [("E", Value.vStr "y")])
      = .ok (some (demoRowB 12 2 "b" "y"))
    ∧ get_row demoUniqueE none none (some [("E", Value.vStr "q")])
      = .error .keyError := by
  constructor
  · exact (claim1_amended demoS0 ["E"] demoUniqueE [("E", Value.vStr "y")]
      ("E", Value.vStr "y") [] [Value.vStr "y"] rfl rfl rfl rfl rfl).1
      (demoRowB 12 2 "b" "y") rfl
  · exact (claim1_amended demoS0 ["E"] demoUniqueE [("E", Value.vStr "q")]
      ("E", Value.vStr "q") [] [Value.vStr "q"] rfl rfl rfl rfl rfl).2 rfl

/-- C2 counterexample: after a second `build_index` call that does not
re-specify the non-unique `C` index, the kept index maps the value
tuple `("a",)` to `[row1, row3, row1, row3]` — each matching row
appears twice, not exactly once. -/
theorem claim2_counterexample :
    build_index demoNonuniqueC [⟨["E"], true⟩] = .ok demoDup
    ∧ matchingRows demoDup.rows ["C"] [Value.vStr "a"]
        = [demoRowB 11 1 "a" "x", demoRowB 13 3 "a" "z"]
    ∧ get_rows demoDup [("C", Value.vStr "a")]
        = .ok [demoRowB 11 1 "a" "x", demoRowB 13 3 "a" "z",
               demoRowB 11 1 "a" "x", demoRowB 13 3 "a" "z"]
    ∧ get_rows demoDup [("C", Value.vStr "a")]
        ≠ .ok (matchingRows demoDup.rows ["C"] [Value.vStr "a"]) := by
  refine ⟨rfl, rfl, rfl, ?_⟩
  have h1 : get_rows demoDup [("C", Value.vStr "a")]
      = .ok [demoRowB 11 1 "a" "x", demoRowB 13 3 "a" "z",
             demoRowB 11 1 "a" "x", demoRowB 13 3 "a" "z"] := rfl
  have h2 : matchingRows demoDup.rows ["C"] [Value.vStr "a"]
      = [demoRowB 11 1 "a" "x", demoRowB 13 3 "a" "z"] := rfl
  rw [h1, h2]
  simp

/-- C2 amended: after a `build_index` call that completes without
error, every non-unique index whose column tuple that call registered
with a fresh empty mapping sends each value tuple to the ordered list
of rows whose key-column values equal it, each matching row exactly
once; an index kept from an earlier call and not re-specified is
re-scanned as well and accumulates duplicate entries (see the
counterexample). -/
theorem claim2_amended :
    (∀ (s : Sheet) (specs : List IndexSpec) (s' : Sheet) (K : List String),
        build_index s specs = .ok s' →
        dget (registerSpecs s.indexes specs) K = some ⟨false, []⟩ →
        ∃ idx, dget s'.indexes K = some ⟨false, idx⟩ ∧
          ∀ vt, dget idx vt =
            match matchingRows s.rows K vt with
            | [] => none
            | ms => some (.many ms))
    ∧ (build_index demoNonuniqueC [⟨["E"], true⟩] = .ok demoDup
        ∧ dget demoDup.indexes ["C"]
            = some ⟨false,
                [([Value.vStr "a"],
                  .many [demoRowB 11 1 "a" "x", demoRowB 13 3 "a" "z",
                         demoRowB 11 1 "a" "x", demoRowB 13 3 "a" "z"]),
                 ([Value.vStr "b"],
                  .many [demoRowB 12 2 "b" "y", demoRowB 12 2 "b" "y"])]⟩) :=
  ⟨fun _ _ _ _ hb hreg => build_registered_nonunique hb hreg, rfl, rfl⟩

/-- C2 witness: the theorem applied to the single fresh build of the
non-unique `C` index on the demo sheet. -/
theorem claim2_amended_witness :
    dget (registerSpecs demoS0.indexes [⟨["C"], false⟩]) ["C"] = some ⟨false, []⟩
    ∧ ∃ idx, dget demoNonuniqueC.indexes ["C"] = some ⟨false, idx⟩ ∧
        ∀ vt, dget idx vt =
          match matchingRows demoS0.rows ["C"] vt with
          | [] => none
          | ms => some (.many ms) :=
  ⟨rfl, claim2_amended.1 demoS0 [⟨["C"], false⟩] demoNonuniqueC ["C"] rfl rfl⟩

/-- C8: building a unique index over rows with colliding value tuples
raises no error — the build succeeds whenever every row has a cell for
every key column — and each value tuple maps to the last matching row
in row order (the later row silently replaces the earlier one), while
the row-number and row-id lookups are untouched by the build, so the
earlier row stays reachable through them; concretely, rows 1 and 3 of
the demo sheet collide on `C` and the index keeps row 3, with row 1
still reachable by row number 1 and row id 11. -/
theorem claim8_unique_overwrite :
    (∀ (s : Sheet) (K : List String),
        s.indexes = [] →
        (∀ r ∈ s.rows, ∃ k, rowKey r K = .ok k) →
        ∃ s', build_index s [⟨K, true⟩] = .ok s'
          ∧ s'.rows = s.rows
          ∧ s'.rowNumToRow = s.rowNumToRow
          ∧ s'.rowIdToRow = s.rowIdToRow
          ∧ ∃ idx, dget s'.indexes K = some ⟨true, idx⟩
            ∧ ∀ vt, dget idx vt =
                match lastMatch s.rows K vt with
                | some u => some (.one u)
                | none => none)
    ∧ (build_index demoS0 [⟨["C"], true⟩] = .ok demoUniqueC
        ∧ dget demoUniqueC.indexes ["C"]
            = some ⟨true, [([Value.vStr "a"], .one (demoRowB 13 3 "a" "z")),
                           ([Value.vStr "b"], .one (demoRowB 12 2 "b" "y"))]⟩
        ∧ matchingRows demoS0.rows ["C"] [Value.vStr "a"]
            = [demoRowB 11 1 "a" "x", demoRowB 13 3 "a" "z"]
        ∧ get_row demoUniqueC (some 1) none none
            = .ok (some (demoRowB 11 1 "a" "x"))
        ∧ get_row demoUniqueC none (some 11) none
            = .ok (some (demoRowB 11 1 "a" "x"))) := by
  refine ⟨?_, rfl, rfl, rfl, rfl, rfl⟩
  intro s K h0 hk
  obtain ⟨s', hb⟩ := build_fresh_unique_ok h0 hk
  obtain ⟨_, _, hr, hn, hi, _, _, _⟩ := build_index_parts hb
  have hreg : dget (registerSpecs s.indexes [⟨K, true⟩]) K = some ⟨true, []⟩ := by
    rw [registerSpecs_single h0]
    simp [dget]
  obtain ⟨idx, hgi, hix⟩ := build_registered_unique hb hreg
  exact ⟨s', hb, hr, hn, hi, idx, hgi, hix⟩

/-- C8 witness: the theorem applied to the demo sheet and the key
columns `["C"]`, discharging the cell-coverage hypothesis row by row. -/
theorem claim8_witness :
    (∀ r ∈ demoS0.rows, ∃ k, rowKey r ["C"] = Except.ok k)
    ∧ ∃ s', build_index demoS0 [⟨["C"], true⟩] = .ok s'
        ∧ s'.rows = demoS0.rows
        ∧ s'.rowNumToRow = demoS0.rowNumToRow
        ∧ s'.rowIdToRow = demoS0.rowIdToRow
        ∧ ∃ idx, dget s'.indexes ["C"] = some ⟨true, idx⟩
          ∧ ∀ vt, dget idx vt =
              match lastMatch demoS0.rows ["C"] vt with
              | some u => some (.one u)
              | none => none := by
  have hk : ∀ r ∈ demoS0.rows, ∃ k, rowKey r ["C"] = Except.ok k := by
    intro r hr
    have hrows : demoS0.rows
        = [demoRowB 11 1 "a" "x", demoRowB 12 2 "b" "y", demoRowB 13 3 "a" "z"] := rfl
    rw [hrows] at hr
    simp only [List.mem_cons, List.not_mem_nil, or_false] at hr
    rcases hr with h | h | h <;> subst h
    · exact ⟨[Value.vStr "a"], rfl⟩
    · exact ⟨[Value.vStr "b"], rfl⟩
    · exact ⟨[Value.vStr "a"], rfl⟩
  exact ⟨hk, claim8_unique_overwrite.1 demoS0 ["C"] rfl hk⟩

end SimpleSmartsheet
